import Mathlib

/-!
# Verification of the logicism schematic-editor core

Shallow embedding of the canvas interaction model of the `logicism`
repository (files `canvas.rs`, `component.rs`, `wire.rs`): coordinate
conversion between pixel space and the integer grid, axis-aligned wire
segments, the directional snap used while drawing a wire, orientation-aware
anchor geometry, the canvas tool-switch key handler, and the component
item's pointer/broadcast event handler.

Pixel coordinates are modelled as rationals (all pixel constants in the
source are small integers, exactly representable in `f64`, so rational
arithmetic is faithful); grid coordinates are pairs of integers.
`f64::round` (round half away from zero) is modelled by `rustRound`.
The 90-degree rotations built from `Affine::rotate(orientation.angle())`
are modelled by their exact integer rotation matrices.
-/

namespace Logicism

/-- A point in continuous pixel space (druid `Point` / `Vec2`). -/
structure Pt where
  x : ℚ
  y : ℚ
deriving DecidableEq, Repr

namespace Pt

/-- Component-wise subtraction (druid `Point - Vec2`, `Point - Point`). -/
def sub (a b : Pt) : Pt := ⟨a.x - b.x, a.y - b.y⟩

/-- Component-wise addition (druid `Point + Vec2`). -/
def add (a b : Pt) : Pt := ⟨a.x + b.x, a.y + b.y⟩

end Pt

/-- `f64::round`: round half away from zero. -/
def rustRound (q : ℚ) : ℤ :=
  if 0 ≤ q then ⌊q + 1/2⌋ else ⌈q - 1/2⌉

/-- A grid coordinate (`Coords` in `canvas.rs`): a discrete grid cell. -/
structure Coords where
  x : ℤ
  y : ℤ
deriving DecidableEq, Repr

namespace Coords

/-- `Coords::new`. -/
def new (x y : ℤ) : Coords := ⟨x, y⟩

/-- `Coords::from_widget_space`: `round(pos / 16)` component-wise. -/
def from_widget_space (pos : Pt) : Coords :=
  ⟨rustRound (pos.x / 16), rustRound (pos.y / 16)⟩

/-- `Coords::to_widget_space`: `(x * 16, y * 16)`. -/
def to_widget_space (c : Coords) : Pt :=
  ⟨(c.x * 16 : ℤ), (c.y * 16 : ℤ)⟩

/-- `Coords::from_canvas_space`: `round((pos - 8) / 16)` component-wise. -/
def from_canvas_space (pos : Pt) : Coords :=
  ⟨rustRound ((pos.x - 8) / 16), rustRound ((pos.y - 8) / 16)⟩

/-- `Coords::to_canvas_space`: `to_widget_space() + Vec2::new(8.0, 8.0)`. -/
def to_canvas_space (c : Coords) : Pt :=
  (c.to_widget_space).add ⟨8, 8⟩

/-- `impl Add for Coords`: component-wise integer addition. -/
def add (a b : Coords) : Coords := ⟨a.x + b.x, a.y + b.y⟩

end Coords

/-- `WireSegment` in `wire.rs` (field `end` renamed `stop`: `end` is a Lean
keyword). -/
structure WireSegment where
  start : Coords
  stop : Coords
deriving DecidableEq, Repr

namespace WireSegment

/-- `WireSegment::new`: `None` when `start.x != end.x && start.y != end.y`,
otherwise `Some`. -/
def new (start stop : Coords) : Option WireSegment :=
  if start.x ≠ stop.x ∧ start.y ≠ stop.y then
    none
  else
    some ⟨start, stop⟩

end WireSegment

/-- The directional snap on the live wire-preview path of `Canvas::paint`:
compare `abs_diff` of the x components of pointer cell `p` and start cell
`s` with `abs_diff` of the y components; if strictly larger, clamp `y` to
the start's `y`, else clamp `x` to the start's `x`. -/
def snapEndpoint (s p : Coords) : Coords :=
  if (p.x - s.x).natAbs > (p.y - s.y).natAbs then
    { p with y := s.y }
  else
    { p with x := s.x }

/-- `Orientation` in `component.rs`. -/
inductive Orientation
  | North
  | East
  | South
  | West
deriving DecidableEq, Repr

/-- druid `Size`. -/
structure Size where
  width : ℚ
  height : ℚ
deriving DecidableEq, Repr

/-- `PinType` in `component.rs`. -/
inductive PinType
  | Input
  | Output
deriving DecidableEq, Repr

/-- `Pin` in `component.rs`. -/
structure Pin where
  pos : Coords
  ty : PinType
deriving DecidableEq, Repr

/-- `Pin::new`. -/
def Pin.new (x y : ℤ) (ty : PinType) : Pin := ⟨⟨x, y⟩, ty⟩

/-- `ComponentType` in `component.rs`. The `icon` field (opaque SVG data)
is omitted: no claim depends on it. `anchor_offset` is the anchor offset at
North orientation. -/
structure ComponentType where
  size : Size
  anchor_offset : Pt
  pins : List Pin
deriving DecidableEq, Repr

namespace ComponentType

/-- `ComponentType::anchor_offset(orientation)` (named after the spec's
`effectiveAnchorOffset`; the Rust method shares its name with the field). -/
def effectiveAnchorOffset (ct : ComponentType) (o : Orientation) : Pt :=
  let a := ct.anchor_offset
  match o with
  | Orientation.North => a
  | Orientation.East => ⟨ct.size.height - a.y, a.x⟩
  | Orientation.South => ⟨ct.size.width - a.x, ct.size.height - a.y⟩
  | Orientation.West => ⟨a.y, ct.size.width - a.x⟩

end ComponentType

/-- The NOT gate of `ComponentType::enumerate`. -/
def not_gate : ComponentType :=
  ⟨⟨24, 48⟩, ⟨12, 32⟩,
    [Pin.new 0 1 PinType.Input, Pin.new 0 (-2) PinType.Output]⟩

/-- The AND gate of `ComponentType::enumerate`. -/
def and_gate : ComponentType :=
  ⟨⟨48, 48⟩, ⟨24, 32⟩,
    [Pin.new (-1) 1 PinType.Input, Pin.new 1 1 PinType.Input,
      Pin.new 0 (-2) PinType.Output]⟩

/-- The OR gate of `ComponentType::enumerate`. -/
def or_gate : ComponentType :=
  ⟨⟨48, 48⟩, ⟨24, 32⟩,
    [Pin.new (-1) 1 PinType.Input, Pin.new 1 1 PinType.Input,
      Pin.new 0 (-2) PinType.Output]⟩

/-- The NAND gate of `ComponentType::enumerate`. -/
def nand_gate : ComponentType :=
  ⟨⟨48, 48⟩, ⟨24, 32⟩,
    [Pin.new (-1) 1 PinType.Input, Pin.new 1 1 PinType.Input,
      Pin.new 0 (-2) PinType.Output]⟩

/-- `ComponentType::enumerate`: the fixed catalog. -/
def ComponentType.enumerate : List ComponentType :=
  [not_gate, and_gate, or_gate, nand_gate]

/-- `ComponentInstance::rotate_about_anchor` applied to a point:
`recenter * Affine::rotate(orientation.angle())` with the exact values of
the 90-degree trigonometric functions (screen coordinates, y down). -/
def rotate_about_anchor (o : Orientation) (sz : Size) (p : Pt) : Pt :=
  match o with
  | Orientation.North => p
  | Orientation.East => ⟨sz.height - p.y, p.x⟩
  | Orientation.South => ⟨sz.width - p.x, sz.height - p.y⟩
  | Orientation.West => ⟨p.y, sz.width - p.x⟩

/-- `ComponentInstance` in `component.rs`. -/
structure ComponentInstance where
  coords : Coords
  ty : ComponentType
  orientation : Orientation
deriving DecidableEq, Repr

namespace ComponentInstance

/-- The center of `ComponentInstance::pin_bounding_rect(i)`:
`rotate_about_anchor * (pin.pos.to_widget_space() + anchor_offset)` where
`anchor_offset` is the North-orientation offset (`Self::anchor_offset`). -/
def pin_center (inst : ComponentInstance) (pin : Pin) : Pt :=
  rotate_about_anchor inst.orientation inst.ty.size
    ((pin.pos.to_widget_space).add inst.ty.anchor_offset)

/-- `ComponentInstance::pin_bounding_rect(i).contains(pos)`: a 6-by-6 rect
centered on the pin point; druid `Rect::contains` is half-open. -/
def pin_rect_contains (inst : ComponentInstance) (i : ℕ) (pos : Pt) : Bool :=
  match inst.ty.pins.get? i with
  | none => false
  | some pin =>
    let c := inst.pin_center pin
    decide (c.x - 3 ≤ pos.x ∧ pos.x < c.x + 3 ∧ c.y - 3 ≤ pos.y ∧ pos.y < c.y + 3)

end ComponentInstance

/-- The pin hit-test of `Component::event` on `MouseDown`:
`(0..pins.len()).find(|i| pin_bounding_rect(i).contains(ev.pos))`. -/
def findHitPin (inst : ComponentInstance) (pos : Pt) : Option ℕ :=
  (List.range inst.ty.pins.length).find? (fun i => inst.pin_rect_contains i pos)

/-- `ComponentState` in `component.rs` (field `instance` renamed `inst`:
`instance` is a Lean keyword). -/
structure ComponentState where
  inst : ComponentInstance
  selected : Bool
  dragging : Option (Coords × Pt)
deriving DecidableEq, Repr

/-- `WireDraw` in `canvas.rs`. -/
inductive WireDraw
  | FromComponent (id : ℕ) (pin : ℕ) (loc : Coords)
  | FromWire (id : ℕ) (loc : Coords)
deriving DecidableEq, Repr

/-- A command submitted through `EventCtx::submit_command`: either the
`DESELECT_ALL` selector carrying the originating widget id, or the
`BEGIN_WIRE_DRAW` selector carrying a `WireDraw`. -/
inductive Cmd
  | DeselectAll (id : ℕ)
  | BeginWireDraw (w : WireDraw)
deriving DecidableEq, Repr

/-- Mouse buttons (only the distinction primary / non-primary matters). -/
inductive MouseButton
  | Left
  | Right
  | Middle
deriving DecidableEq, Repr

/-- The fields of druid's `MouseEvent` the component handler reads:
widget-local position, window position, button, and the ctrl modifier. -/
structure MouseEvent where
  pos : Pt
  window_pos : Pt
  button : MouseButton
  ctrl : Bool
deriving DecidableEq, Repr

/-- The input events `Component::event` matches on. `CmdDeselectAll k`
models `Event::Command(c)` with `c.is(DESELECT_ALL)` and payload `k`. -/
inductive Event
  | MouseDown (ev : MouseEvent)
  | MouseUp (ev : MouseEvent)
  | MouseMove (ev : MouseEvent)
  | KeyDown (key : String)
  | CmdDeselectAll (id : ℕ)
deriving DecidableEq, Repr

/-- The observable effects of druid's `EventCtx` used by `Component::event`:
the widget's id, active (pointer-grab) flag, focus flag, handled flag,
repaint request, and the list of submitted commands. -/
structure Ctx where
  widget_id : ℕ
  is_active : Bool
  has_focus : Bool
  handled : Bool
  repaint : Bool
  commands : List Cmd
deriving DecidableEq, Repr

/-- `Component::event` in `component.rs`, as a pure function from the event,
the component's state and the context to the new state and context.
`self_id` is the `usize` stored in the `Component` widget (`self.0`). -/
def Component.event (self_id : ℕ) (event : Event) (data : ComponentState)
    (ctx : Ctx) : ComponentState × Ctx :=
  match event with
  | Event.MouseDown ev =>
    match findHitPin data.inst ev.pos with
    | some pin =>
      let anchor := data.inst.ty.effectiveAnchorOffset data.inst.orientation
      let loc := (Coords.from_widget_space (ev.pos.sub anchor)).add data.inst.coords
      (data,
        { ctx with
          commands := ctx.commands ++
            [Cmd.BeginWireDraw (WireDraw.FromComponent self_id pin loc)] })
    | none =>
      let step :=
        if !data.selected then
          let d := { data with selected := true }
          let c := { ctx with repaint := true }
          if !ev.ctrl then
            (d, { c with commands := c.commands ++ [Cmd.DeselectAll ctx.widget_id] })
          else
            (d, c)
        else
          (data, ctx)
      ({ step.1 with dragging := some (data.inst.coords, ev.window_pos) },
        { step.2 with is_active := true, has_focus := true, handled := true })
  | Event.MouseUp _ =>
    ({ data with dragging := none }, { ctx with is_active := false })
  | Event.MouseMove ev =>
    match data.dragging with
    | some (coords, mouse_origin) =>
      let delta := ev.window_pos.sub mouse_origin
      ({ data with
          inst := { data.inst with coords := coords.add (Coords.from_widget_space delta) } },
        ctx)
    | none => (data, ctx)
  | Event.KeyDown key =>
    let o :=
      if key = "w" then Orientation.North
      else if key = "a" then Orientation.West
      else if key = "s" then Orientation.South
      else if key = "d" then Orientation.East
      else data.inst.orientation
    if o ≠ data.inst.orientation then
      ({ data with inst := { data.inst with orientation := o } },
        { ctx with repaint := true })
    else
      (data, ctx)
  | Event.CmdDeselectAll k =>
    if k ≠ ctx.widget_id then
      ({ data with selected := false },
        { ctx with is_active := false, has_focus := false, repaint := true })
    else
      (data, ctx)

/-- `Tool` in `canvas.rs`. -/
inductive Tool
  | Hand
  | Place (ty : ComponentType) (orientation : Orientation)
deriving DecidableEq, Repr

/-- The `tool` and `last_orientation` fields of `CanvasState`: the state
read and written by the `KeyDown` arm of `Canvas::event`. -/
structure KeyState where
  tool : Tool
  last_orientation : Orientation
deriving DecidableEq, Repr

/-- The digit-key guard and parse of `Canvas::event`:
`s.len() == 1 && s.chars().next().unwrap().is_digit(10)`, then
`u16::from_str_radix(&s, 10).unwrap()`. (`is_digit(10)` holds only for
ASCII digits, whose UTF-8 length is 1, so the byte-length test coincides
with the single-character test.) -/
def parseKey (s : String) : Option ℕ :=
  match s.data with
  | [c] => if c.isDigit then some (c.toNat - 48) else none
  | _ => none

/-- The `KeyDown` arm of `Canvas::event`: space selects `Hand`; a single
decimal digit `d` computes `d.wrapping_sub(1)` on `u16` and, if in catalog
range, selects `Place(catalog[idx], last_orientation)`; `w`/`a`/`s`/`d`
while the tool is `Place` re-orient the tool. `last_orientation` is never
written by this handler. -/
def canvasKeyDown (catalog : List ComponentType) (s : String) (st : KeyState) :
    KeyState :=
  let new_tool :=
    if s = " " then Tool.Hand
    else
      match parseKey s with
      | some d =>
        let n := (d + 65535) % 65536
        match catalog.get? n with
        | some ty => Tool.Place ty st.last_orientation
        | none => st.tool
      | none =>
        match st.tool with
        | Tool.Place ty _ =>
          if s = "w" then Tool.Place ty Orientation.North
          else if s = "a" then Tool.Place ty Orientation.West
          else if s = "s" then Tool.Place ty Orientation.South
          else if s = "d" then Tool.Place ty Orientation.East
          else st.tool
        | Tool.Hand => st.tool
  { st with tool := new_tool }

/-- Modelled from the spec's words in C6: "the pin's orientation-rotated
offset" — the 90-degree-step rotation of a grid offset matching the
canonical angle mapping (North 0, East 90, South 180, West 270, screen
coordinates with y down). Used to compare the broadcast position computed
by the code against the spec's description. -/
def specRotatedPinOffset (o : Orientation) (p : Coords) : Coords :=
  match o with
  | Orientation.North => p
  | Orientation.East => ⟨-p.y, p.x⟩
  | Orientation.South => ⟨-p.x, -p.y⟩
  | Orientation.West => ⟨p.y, -p.x⟩

end Logicism

namespace Logicism

theorem rustRound_eq_of_abs_sub_lt_half (n : ℤ) (q : ℚ) (h : |q - n| < 1/2) :
    rustRound q = n := by
  rw [abs_sub_lt_iff] at h
  obtain ⟨h1, h2⟩ := h
  unfold rustRound
  split
  · rw [Int.floor_eq_iff]
    constructor
    · linarith
    · linarith
  · rw [Int.ceil_eq_iff]
    constructor
    · linarith
    · linarith

theorem rustRound_intCast (n : ℤ) : rustRound (n : ℚ) = n := by
  apply rustRound_eq_of_abs_sub_lt_half
  simp

theorem from_canvas_space_to_canvas_space (c : Coords) :
    Coords.from_canvas_space c.to_canvas_space = c := by
  unfold Coords.from_canvas_space Coords.to_canvas_space Coords.to_widget_space Pt.add
  cases c with
  | mk x y =>
    simp only
    congr 1
    · have h1 : ((x * 16 : ℤ) : ℚ) + 8 - 8 = ((x * 16 : ℤ) : ℚ) := by ring
      rw [h1]
      have h2 : ((x * 16 : ℤ) : ℚ) / 16 = (x : ℚ) := by
        push_cast
        ring
      rw [h2, rustRound_intCast]
    · have h1 : ((y * 16 : ℤ) : ℚ) + 8 - 8 = ((y * 16 : ℤ) : ℚ) := by ring
      rw [h1]
      have h2 : ((y * 16 : ℤ) : ℚ) / 16 = (y : ℚ) := by
        push_cast
        ring
      rw [h2, rustRound_intCast]

theorem from_widget_space_to_widget_space (c : Coords) :
    Coords.from_widget_space c.to_widget_space = c := by
  unfold Coords.from_widget_space Coords.to_widget_space
  cases c with
  | mk x y =>
    simp only
    congr 1
    · have h : ((x * 16 : ℤ) : ℚ) / 16 = (x : ℚ) := by
        push_cast
        ring
      rw [h, rustRound_intCast]
    · have h : ((y * 16 : ℤ) : ℚ) / 16 = (y : ℚ) := by
        push_cast
        ring
      rw [h, rustRound_intCast]

/-- C1: for every grid coordinate `c`, converting to pixel space and back
yields `c` again, both for the canvas-space conversion pair
(`to_canvas_space` then `from_canvas_space`) and for the widget-space pair
(`to_widget_space` then `from_widget_space`). -/
theorem roundtrip_coordinate_conversion (c : Coords) :
    Coords.from_canvas_space c.to_canvas_space = c ∧
      Coords.from_widget_space c.to_widget_space = c :=
  ⟨from_canvas_space_to_canvas_space c, from_widget_space_to_widget_space c⟩

/-- C3: `WireSegment.new a b` constructs a segment iff `a.x = b.x` or
`a.y = b.y`; otherwise it returns `none`. -/
theorem wireSegment_new_isSome_iff (a b : Coords) :
    (WireSegment.new a b).isSome = true ↔ (a.x = b.x ∨ a.y = b.y) := by
  unfold WireSegment.new
  split
  · rename_i h
    simp only [Option.isSome_none, Bool.false_eq_true, false_iff]
    rintro (hx | hy)
    · exact h.1 hx
    · exact h.2 hy
  · rename_i h
    push_neg at h
    simp only [Option.isSome_some, true_iff]
    by_cases hx : a.x = b.x
    · exact Or.inl hx
    · exact Or.inr (h hx)

/-- C2: the wire-draw directional snap always yields a valid segment: for
every start cell `s` and pointer cell `p`, the clamped endpoint shares an
axis with `s`, so `WireSegment.new` returns `some` and the `unwrap` on the
live-preview path of `Canvas::paint` cannot panic. -/
theorem snapEndpoint_always_valid (s p : Coords) :
    ((snapEndpoint s p).x = s.x ∨ (snapEndpoint s p).y = s.y) ∧
      (WireSegment.new s (snapEndpoint s p)).isSome = true := by
  constructor
  · unfold snapEndpoint
    split
    · exact Or.inr rfl
    · exact Or.inl rfl
  · unfold snapEndpoint
    split
    · unfold WireSegment.new
      rw [if_neg]
      · rfl
      · rintro ⟨-, hy⟩
        exact hy rfl
    · unfold WireSegment.new
      rw [if_neg]
      · rfl
      · rintro ⟨hx, -⟩
        exact hx rfl

/-- C4: for every catalog entry with North-orientation size
`(width, height)` and anchor offset `a`, `anchor_offset(orientation)`
returns `a` for North, `(height - a.y, a.x)` for East,
`(width - a.x, height - a.y)` for South, and `(a.y, width - a.x)` for
West. -/
theorem effectiveAnchorOffset_formulas (ct : ComponentType) :
    ct.effectiveAnchorOffset Orientation.North = ct.anchor_offset ∧
      ct.effectiveAnchorOffset Orientation.East =
        ⟨ct.size.height - ct.anchor_offset.y, ct.anchor_offset.x⟩ ∧
      ct.effectiveAnchorOffset Orientation.South =
        ⟨ct.size.width - ct.anchor_offset.x, ct.size.height - ct.anchor_offset.y⟩ ∧
      ct.effectiveAnchorOffset Orientation.West =
        ⟨ct.anchor_offset.y, ct.size.width - ct.anchor_offset.x⟩ :=
  ⟨rfl, rfl, rfl, rfl⟩

/-- C5 counterexample: with the tool `Place(not_gate, North)` and
`last_orientation = North`, pressing "d" changes the tool to
`Place(not_gate, East)` but leaves `last_orientation` at `North`: the
handler never writes `last_orientation`, so the claim that it is updated to
the chosen orientation is false. -/
theorem orientation_key_leaves_last_orientation_counterexample :
    (canvasKeyDown ComponentType.enumerate "d"
        ⟨Tool.Place not_gate Orientation.North, Orientation.North⟩).tool =
      Tool.Place not_gate Orientation.East ∧
    (canvasKeyDown ComponentType.enumerate "d"
        ⟨Tool.Place not_gate Orientation.North, Orientation.North⟩).last_orientation =
      Orientation.North ∧
    (canvasKeyDown ComponentType.enumerate "d"
        ⟨Tool.Place not_gate Orientation.North, Orientation.North⟩).last_orientation ≠
      Orientation.East := by
  refine ⟨rfl, rfl, ?_⟩
  decide

/-- C5 (amended): while the tool is `Place`, pressing "w"/"a"/"s"/"d"
changes the tool to `Place` with the same catalog entry and orientation
North/West/South/East respectively, and leaves the canvas state's
`last_orientation` field unchanged (it is never written by the key
handler). -/
theorem place_orientation_keys (catalog : List ComponentType)
    (ty : ComponentType) (o lo : Orientation) :
    canvasKeyDown catalog "w" ⟨Tool.Place ty o, lo⟩ =
        ⟨Tool.Place ty Orientation.North, lo⟩ ∧
      canvasKeyDown catalog "a" ⟨Tool.Place ty o, lo⟩ =
        ⟨Tool.Place ty Orientation.West, lo⟩ ∧
      canvasKeyDown catalog "s" ⟨Tool.Place ty o, lo⟩ =
        ⟨Tool.Place ty Orientation.South, lo⟩ ∧
      canvasKeyDown catalog "d" ⟨Tool.Place ty o, lo⟩ =
        ⟨Tool.Place ty Orientation.East, lo⟩ :=
  ⟨rfl, rfl, rfl, rfl⟩

/-- C8: on a key-down whose character is a single decimal digit `d`, the
handler computes the `u16`-wrapping index `(d + 65535) % 65536` (so "1"
maps to catalog index 0 and "0" underflows to 65535); if the index is in
catalog range the tool becomes `Place(catalog[idx], last_orientation)`,
otherwise the state is left unchanged. -/
theorem digit_key_tool_switch (catalog : List ComponentType) (st : KeyState)
    (s : String) (d : ℕ) (hd : parseKey s = some d) :
    (∀ ty, catalog.get? ((d + 65535) % 65536) = some ty →
        canvasKeyDown catalog s st =
          ⟨Tool.Place ty st.last_orientation, st.last_orientation⟩) ∧
      (catalog.get? ((d + 65535) % 65536) = none →
        canvasKeyDown catalog s st = st) := by
  have hs : s ≠ " " := by
    intro h
    rw [h] at hd
    exact Option.noConfusion hd
  constructor
  · intro ty hty
    simp only [canvasKeyDown, if_neg hs, hd, hty]
  · intro hnone
    simp only [canvasKeyDown, if_neg hs, hd, hnone]

/-- C8 witness: with the real catalog, "2" selects the AND gate carrying
`last_orientation`, and "0" (wrapping to index 65535, out of range) is
silently ignored. -/
theorem digit_key_tool_switch_witness :
    canvasKeyDown ComponentType.enumerate "2" ⟨Tool.Hand, Orientation.West⟩ =
        ⟨Tool.Place and_gate Orientation.West, Orientation.West⟩ ∧
      canvasKeyDown ComponentType.enumerate "0" ⟨Tool.Hand, Orientation.West⟩ =
        ⟨Tool.Hand, Orientation.West⟩ := by
  constructor
  · exact (digit_key_tool_switch ComponentType.enumerate
      ⟨Tool.Hand, Orientation.West⟩ "2" 2 rfl).1 and_gate rfl
  · exact (digit_key_tool_switch ComponentType.enumerate
      ⟨Tool.Hand, Orientation.West⟩ "0" 0 rfl).2 rfl

/-- C7: while a component item holds a drag anchor
`(c0, origin)`, every pointer-move sets its coords to
`c0 + from_widget_space(window_pos - origin)` — a delta against the
captured drag-start state (the drag anchor itself is unchanged), so the
result depends only on the current pointer position and returning the
pointer to its drag-start pixel restores the original coords. -/
theorem relative_drag_recompute (self_id : ℕ) (data : ComponentState)
    (ctx : Ctx) (ev : MouseEvent) (c0 : Coords) (origin : Pt)
    (hdrag : data.dragging = some (c0, origin)) :
    (Component.event self_id (Event.MouseMove ev) data ctx).1.inst.coords =
        c0.add (Coords.from_widget_space (ev.window_pos.sub origin)) ∧
      (Component.event self_id (Event.MouseMove ev) data ctx).1.dragging =
        data.dragging ∧
      (ev.window_pos = origin →
        (Component.event self_id (Event.MouseMove ev) data ctx).1.inst.coords = c0) := by
  have hev : (Component.event self_id (Event.MouseMove ev) data ctx).1.inst.coords =
      c0.add (Coords.from_widget_space (ev.window_pos.sub origin)) := by
    simp only [Component.event, hdrag]
  have hdr : (Component.event self_id (Event.MouseMove ev) data ctx).1.dragging =
      data.dragging := by
    simp only [Component.event, hdrag]
  refine ⟨hev, hdr, ?_⟩
  intro h
  rw [hev, h]
  have hsub : origin.sub origin = (⟨0, 0⟩ : Pt) := by
    simp [Pt.sub]
  rw [hsub]
  have h0 : Coords.from_widget_space ⟨0, 0⟩ = ⟨0, 0⟩ := by
    unfold Coords.from_widget_space rustRound
    norm_num
  rw [h0]
  simp [Coords.add]

/-- C7 witness: concrete drag at its start pixel restores the original
coords. -/
theorem relative_drag_recompute_witness :
    (Component.event 1
        (Event.MouseMove ⟨⟨0, 0⟩, ⟨50, 50⟩, MouseButton.Left, false⟩)
        ⟨⟨⟨3, 4⟩, not_gate, Orientation.North⟩, false, some (⟨3, 4⟩, ⟨50, 50⟩)⟩
        ⟨2, false, false, false, false, []⟩).1.inst.coords = ⟨3, 4⟩ :=
  (relative_drag_recompute 1 _ _ _ ⟨3, 4⟩ ⟨50, 50⟩ rfl).2.2 rfl

/-- C9: delivering the deselect-all broadcast with originating widget id
`k` to a component item leaves the item untouched when `k` is its own id,
and otherwise sets `selected := false`, releases the pointer grab
(`set_active(false)`), resigns focus and requests a repaint; the `dragging`
anchor field and everything else are unchanged, as the record equality
shows. -/
theorem deselect_broadcast_exclusivity (self_id : ℕ) (data : ComponentState)
    (ctx : Ctx) (k : ℕ) :
    (k ≠ ctx.widget_id →
        Component.event self_id (Event.CmdDeselectAll k) data ctx =
          ({ data with selected := false },
            { ctx with is_active := false, has_focus := false, repaint := true })) ∧
      (k = ctx.widget_id →
        Component.event self_id (Event.CmdDeselectAll k) data ctx = (data, ctx)) := by
  constructor
  · intro h
    simp only [Component.event, if_pos h]
  · intro h
    simp only [Component.event, if_neg (not_not_intro h)]

/-- C9 witness: a selected, focused item receiving a foreign deselect-all
ends unselected, inactive and unfocused. -/
theorem deselect_broadcast_exclusivity_witness :
    Component.event 0 (Event.CmdDeselectAll 7)
        ⟨⟨⟨1, 2⟩, not_gate, Orientation.North⟩, true, none⟩
        ⟨3, true, true, false, false, []⟩ =
      (⟨⟨⟨1, 2⟩, not_gate, Orientation.North⟩, false, none⟩,
        ⟨3, false, false, false, true, []⟩) :=
  (deselect_broadcast_exclusivity 0 _ _ 7).1 (by decide)

theorem Coords.ext_xy {a b : Coords} (hx : a.x = b.x) (hy : a.y = b.y) :
    a = b := by
  cases a
  cases b
  simp only at hx hy
  rw [hx, hy]

theorem pin_center_sub_anchor (inst : ComponentInstance) (pin : Pin) :
    (inst.pin_center pin).x -
        (inst.ty.effectiveAnchorOffset inst.orientation).x =
      16 * ((specRotatedPinOffset inst.orientation pin.pos).x : ℚ) ∧
    (inst.pin_center pin).y -
        (inst.ty.effectiveAnchorOffset inst.orientation).y =
      16 * ((specRotatedPinOffset inst.orientation pin.pos).y : ℚ) := by
  rcases inst with ⟨c, ty, o⟩
  cases o <;>
    · simp only [ComponentInstance.pin_center, rotate_about_anchor,
        ComponentType.effectiveAnchorOffset, specRotatedPinOffset, Pt.add,
        Coords.to_widget_space]
      constructor <;>
        · push_cast
          ring

theorem rustRound_near_center (n : ℤ) (a c q : ℚ) (hca : c - a = 16 * n)
    (h1 : c - 3 ≤ q) (h2 : q < c + 3) : rustRound ((q - a) / 16) = n := by
  apply rustRound_eq_of_abs_sub_lt_half
  rw [abs_sub_lt_iff]
  constructor <;> · linarith

/-- C6 (amended): a pointer-down whose position lies inside one of a
component item's pin hit regions does not select the item and does not
start a drag; it emits exactly one begin-wire-draw broadcast carrying the
pin's grid-space position — the item's anchor coordinate plus the pin's
orientation-rotated offset — but it does NOT mark the event consumed: the
state and every context flag (including `handled`) are unchanged, only the
command list grows. -/
theorem pin_mousedown_wire_draw (self_id : ℕ) (data : ComponentState)
    (ctx : Ctx) (ev : MouseEvent) (i : ℕ) (pin : Pin)
    (hfind : findHitPin data.inst ev.pos = some i)
    (hpin : data.inst.ty.pins.get? i = some pin) :
    Component.event self_id (Event.MouseDown ev) data ctx =
      (data,
        { ctx with
          commands := ctx.commands ++
            [Cmd.BeginWireDraw (WireDraw.FromComponent self_id i
              ((data.inst.coords).add
                (specRotatedPinOffset data.inst.orientation pin.pos)))] }) ∧
    (Component.event self_id (Event.MouseDown ev) data ctx).2.handled =
      ctx.handled := by
  have hfind' := hfind
  unfold findHitPin at hfind'
  have hcontains : data.inst.pin_rect_contains i ev.pos = true := by
    simpa using List.find?_some hfind'
  unfold ComponentInstance.pin_rect_contains at hcontains
  rw [hpin] at hcontains
  simp only [decide_eq_true_eq] at hcontains
  obtain ⟨hx1, hx2, hy1, hy2⟩ := hcontains
  obtain ⟨hcx, hcy⟩ := pin_center_sub_anchor data.inst pin
  have hfw : Coords.from_widget_space
      (ev.pos.sub (data.inst.ty.effectiveAnchorOffset data.inst.orientation)) =
      specRotatedPinOffset data.inst.orientation pin.pos := by
    apply Coords.ext_xy
    · exact rustRound_near_center _ _ _ _ hcx hx1 hx2
    · exact rustRound_near_center _ _ _ _ hcy hy1 hy2
  have hcomm :
      (Coords.from_widget_space
          (ev.pos.sub
            (data.inst.ty.effectiveAnchorOffset data.inst.orientation))).add
        data.inst.coords =
      (data.inst.coords).add
        (specRotatedPinOffset data.inst.orientation pin.pos) := by
    rw [hfw]
    apply Coords.ext_xy <;> simp [Coords.add, Int.add_comm]
  constructor
  · simp only [Component.event, hfind, hcomm]
  · simp only [Component.event, hfind]

/-- C6 counterexample: a concrete primary-button pointer-down on the NOT
gate's input pin (hit region found: pin index 0) leaves the context's
`handled` flag false — the pin branch of `Component::event` never calls
`set_handled`, so the event is not consumed, contradicting the claim that
the canvas-level Hand handler cannot also act on this pointer-down. -/
theorem pin_mousedown_not_consumed_counterexample :
    findHitPin ⟨⟨10, 10⟩, not_gate, Orientation.North⟩ ⟨12, 48⟩ = some 0 ∧
    (Component.event 4
        (Event.MouseDown ⟨⟨12, 48⟩, ⟨12, 48⟩, MouseButton.Left, false⟩)
        ⟨⟨⟨10, 10⟩, not_gate, Orientation.North⟩, false, none⟩
        ⟨6, false, false, false, false, []⟩).2.handled = false := by
  have h : findHitPin ⟨⟨10, 10⟩, not_gate, Orientation.North⟩ ⟨12, 48⟩ =
      some 0 := by
    norm_num [findHitPin, not_gate, List.range_succ,
      ComponentInstance.pin_rect_contains, ComponentInstance.pin_center,
      rotate_about_anchor, Pt.add, Coords.to_widget_space, Pin.new,
      List.find?]
  refine ⟨h, ?_⟩
  simp only [Component.event, h]

/-- C6 witness: a pointer-down on the NOT gate's input pin (anchor at
grid (10,10), pin offset (0,1), North) emits a begin-wire-draw at grid
(10,11) and changes nothing else. -/
theorem pin_mousedown_wire_draw_witness :
    Component.event 4
        (Event.MouseDown ⟨⟨12, 48⟩, ⟨12, 48⟩, MouseButton.Left, false⟩)
        ⟨⟨⟨10, 10⟩, not_gate, Orientation.North⟩, false, none⟩
        ⟨6, false, false, false, false, []⟩ =
      (⟨⟨⟨10, 10⟩, not_gate, Orientation.North⟩, false, none⟩,
        ⟨6, false, false, false, false,
          [Cmd.BeginWireDraw (WireDraw.FromComponent 4 0 ⟨10, 11⟩)]⟩) :=
  (pin_mousedown_wire_draw 4
    ⟨⟨⟨10, 10⟩, not_gate, Orientation.North⟩, false, none⟩
    ⟨6, false, false, false, false, []⟩
    ⟨⟨12, 48⟩, ⟨12, 48⟩, MouseButton.Left, false⟩ 0 (Pin.new 0 1 PinType.Input)
    (by norm_num [findHitPin, not_gate, List.range_succ,
      ComponentInstance.pin_rect_contains, ComponentInstance.pin_center,
      rotate_about_anchor, Pt.add, Coords.to_widget_space, Pin.new,
      List.find?])
    rfl).1

/-- C10: a pointer-down outside every pin region of a component item that
is already selected emits no deselect-all broadcast and leaves `selected`
true — it only re-captures the drag anchor, activates, focuses and
consumes the event; and in general the deselect-all broadcast is emitted
exactly when the item was unselected and ctrl is not held. -/
theorem selected_body_click_no_broadcast (self_id : ℕ) (data : ComponentState)
    (ctx : Ctx) (ev : MouseEvent)
    (hpin : findHitPin data.inst ev.pos = none) :
    (data.selected = true →
        Component.event self_id (Event.MouseDown ev) data ctx =
          ({ data with dragging := some (data.inst.coords, ev.window_pos) },
            { ctx with is_active := true, has_focus := true, handled := true })) ∧
      ((Component.event self_id (Event.MouseDown ev) data ctx).2.commands =
        ctx.commands ++
          (if data.selected = false ∧ ev.ctrl = false then
            [Cmd.DeselectAll ctx.widget_id]
          else [])) := by
  constructor
  · intro hsel
    simp only [Component.event, hpin, hsel, Bool.not_true, Bool.false_eq_true,
      if_false]
  · rcases hs : data.selected <;> rcases hc : ev.ctrl <;>
      simp [Component.event, hpin, hs, hc]

/-- C10 witness: clicking the body of an already-selected NOT gate
re-captures the drag anchor, consumes the event and emits nothing. -/
theorem selected_body_click_no_broadcast_witness :
    Component.event 3
        (Event.MouseDown ⟨⟨100, 100⟩, ⟨100, 100⟩, MouseButton.Left, false⟩)
        ⟨⟨⟨0, 0⟩, not_gate, Orientation.North⟩, true, none⟩
        ⟨9, false, false, false, false, []⟩ =
      (⟨⟨⟨0, 0⟩, not_gate, Orientation.North⟩, true, some (⟨0, 0⟩, ⟨100, 100⟩)⟩,
        ⟨9, true, true, true, false, []⟩) :=
  (selected_body_click_no_broadcast 3 _ _ _
    (by norm_num [findHitPin, not_gate, List.range_succ,
      ComponentInstance.pin_rect_contains, ComponentInstance.pin_center,
      rotate_about_anchor, Pt.add, Coords.to_widget_space, Pin.new,
      List.find?])).1 rfl

end Logicism
